import Mathlib

/-!
Verification development for the Miura-ori crease-pattern generator
(`pgen.py`).  The Python source is shallowly embedded over `ℝ`:

* python floats become real numbers, `math.sqrt`/`math.asin`/... become
  `Real.sqrt`/`Real.arcsin`/...;
* the SVG drawing backend is abstracted: a drawn line becomes a value of
  an inductive type recording the numeric content of the emitted
  primitive (coordinates, stroke thickness, dash pattern, dash offset);
* python exceptions (ZeroDivisionError / ValueError raised by
  `math.sqrt`, `math.asin`, division, and AssertionError raised by
  `assert`) become an `Except` error result, produced at the same
  program point (same evaluation order) as in the source; per the
  specification's error taxonomy, domain/division errors in the
  geometry derivation are `degenerateGeometry` and the two `assert`
  statements are `feasibility`.
-/

/-- `LineType` enum from `pgen.py` (VALLEY / MOUNTAIN / EDGE). -/
inductive LineType where
  | VALLEY
  | MOUNTAIN
  | EDGE
deriving DecidableEq, Repr

/-- `PT_PER_UNIT = 72 / UNITS_PER_INCH` with `UNITS_PER_INCH = 2.54`. -/
noncomputable def PT_PER_UNIT : ℝ := 72 / 2.54

/-- `safe_zone_pt = 3` in `lasercutter_base_line`. -/
def safeZonePt : ℝ := 3

/-- `dash_length_pt = 7.2` in `lasercutter_base_line`. -/
noncomputable def dashLengthPt : ℝ := 7.2

/-- `gap_length_pt = 7.2` in `lasercutter_base_line`. -/
noncomputable def gapLengthPt : ℝ := 7.2

/-- `full_line_length_pt = sqrt((x2-x1)**2 + (y2-y1)**2) * PT_PER_UNIT`. -/
noncomputable def fullLineLengthPt (x1 y1 x2 y2 : ℝ) : ℝ :=
  Real.sqrt ((x2 - x1) ^ 2 + (y2 - y1) ^ 2) * PT_PER_UNIT

/-- `line_length_pt = full_line_length_pt - 2 * safe_zone_pt` (the usable
dashed length). -/
noncomputable def lineLengthPt (x1 y1 x2 y2 : ℝ) : ℝ :=
  fullLineLengthPt x1 y1 x2 y2 - 2 * safeZonePt

/-- `weighted_average(a, b, t) = a * t + b * (1 - t)` (local helper in
`lasercutter_base_line`).  Note the parameter `t` weights the FIRST
argument. -/
def weightedAverage (a b t : ℝ) : ℝ := a * t + b * (1 - t)

/-- The `while` loop of `lasercutter_base_line`:
`while dash_count * dash_length_pt + (dash_count - 1) * gap_length_pt <= line_length_pt: dash_count += 1`.
`dashLoop L n` runs the loop body starting from counter value `n` and
returns the final counter value (the first `m ≥ n` whose dash pattern
does NOT fit inside `L`). -/
noncomputable def dashLoop (L : ℝ) (n : ℕ) : ℕ :=
  if h : (n : ℝ) * dashLengthPt + ((n : ℝ) - 1) * gapLengthPt ≤ L then
    dashLoop L (n + 1)
  else n
termination_by (⌈L⌉.toNat + 9) - n
decreasing_by
  have h72 : (7.2 : ℝ) = dashLengthPt := rfl
  have hL : (n : ℝ) * 7.2 + ((n : ℝ) - 1) * 7.2 ≤ L := by
    rw [h72]; exact h
  have hceil : L ≤ (⌈L⌉.toNat : ℝ) := by
    calc L ≤ (⌈L⌉ : ℝ) := Int.le_ceil L
    _ ≤ ((⌈L⌉.toNat : ℤ) : ℝ) := by exact_mod_cast Int.self_le_toNat ⌈L⌉
    _ = (⌈L⌉.toNat : ℝ) := by push_cast; ring
  have hn : (n : ℝ) < (⌈L⌉.toNat : ℝ) + 9 := by nlinarith
  have hn2 : n < ⌈L⌉.toNat + 9 := by exact_mod_cast hn
  omega

/-- `dash_count` as used by `lasercutter_base_line`: the loop starts at
`dash_count = 1`. -/
noncomputable def dashCount (L : ℝ) : ℕ := dashLoop L 1

/-- `dash_offset_pt = (dash_count * dash_length_pt + (dash_count - 1) * gap_length_pt - line_length_pt) / 2`. -/
noncomputable def dashOffsetOf (L : ℝ) : ℝ :=
  ((dashCount L : ℝ) * dashLengthPt + ((dashCount L : ℝ) - 1) * gapLengthPt - L) / 2

/-- Numeric content of the primitive a renderer hands to the SVG
backend: a solid line (coordinates and stroke thickness), a dashed line
(coordinates, thickness, dash length, gap length, dash offset), or
nothing (`lasercutter_base_line` returns early when the usable length is
non-positive). -/
inductive Emitted where
  | solid : ℝ → ℝ → ℝ → ℝ → ℝ → Emitted
  | dashed : ℝ → ℝ → ℝ → ℝ → ℝ → ℝ → ℝ → ℝ → Emitted
  | skipped : Emitted

/-- `lasercutter_base_line(thickness_pt, dwg, x1, y1, x2, y2, line_type)`:
EDGE lines are drawn solid at the original endpoints; VALLEY/MOUNTAIN
lines are drawn dashed between the safe-zone-trimmed points, with the
computed dash offset, unless the usable length is non-positive. -/
noncomputable def lasercutterBaseLine (thicknessPt x1 y1 x2 y2 : ℝ)
    (lineType : LineType) : Emitted :=
  if lineType = LineType.EDGE then
    Emitted.solid x1 y1 x2 y2 thicknessPt
  else if lineLengthPt x1 y1 x2 y2 ≤ 0 then
    Emitted.skipped
  else
    Emitted.dashed
      (weightedAverage x1 x2 (safeZonePt / fullLineLengthPt x1 y1 x2 y2))
      (weightedAverage y1 y2 (safeZonePt / fullLineLengthPt x1 y1 x2 y2))
      (weightedAverage x1 x2 (1 - safeZonePt / fullLineLengthPt x1 y1 x2 y2))
      (weightedAverage y1 y2 (1 - safeZonePt / fullLineLengthPt x1 y1 x2 y2))
      thicknessPt dashLengthPt gapLengthPt
      (dashOffsetOf (lineLengthPt x1 y1 x2 y2))

/-- `lasercutter_line` calls the base renderer with thickness `0.01`pt. -/
noncomputable def lasercutterLine (x1 y1 x2 y2 : ℝ) (lineType : LineType) : Emitted :=
  lasercutterBaseLine 0.01 x1 y1 x2 y2 lineType

/-- `lasercutter_preview_line` calls the base renderer with thickness `2`pt. -/
noncomputable def lasercutterPreviewLine (x1 y1 x2 y2 : ℝ) (lineType : LineType) : Emitted :=
  lasercutterBaseLine 2 x1 y1 x2 y2 lineType

/-- The denominator of the angle solver:
`sqrt(radius ** 2 + cell_height ** 2 - 2 * radius * cell_height * cos(beta))`
(`pgen.py` line 129). -/
noncomputable def solverDenom (radius cellHeight beta : ℝ) : ℝ :=
  Real.sqrt (radius ^ 2 + cellHeight ^ 2 - 2 * radius * cellHeight * Real.cos beta)

/-- The argument of `asin` in the angle solver:
`(cell_height * sin(beta)) / sqrt(...)` (`pgen.py` lines 127-130). -/
noncomputable def asinArg (radius cellHeight beta : ℝ) : ℝ :=
  cellHeight * Real.sin beta / solverDenom radius cellHeight beta

/-- `delta = asin((cell_height * sin(beta)) / sqrt(radius**2 + cell_height**2 - 2*radius*cell_height*cos(beta)))`. -/
noncomputable def deltaOf (radius cellHeight beta : ℝ) : ℝ :=
  Real.arcsin (asinArg radius cellHeight beta)

/-- `alpha = beta + delta` (`pgen.py` line 131). -/
noncomputable def alphaOf (radius cellHeight beta : ℝ) : ℝ :=
  beta + deltaOf radius cellHeight beta

/-- `smallest_cell_side = cell_height + cell_width * (tan(beta) - tan(alpha))`
(`pgen.py` line 132). -/
noncomputable def smallestCellSide (radius beta cellWidth cellHeight : ℝ) : ℝ :=
  cellHeight + cellWidth * (Real.tan beta - Real.tan (alphaOf radius cellHeight beta))

/-- A segment handed to a renderer: two clipped endpoints plus the
`LineType` tag (the arguments of each `line_func(dwg, x1, y1, x2, y2, line_type)`
call inside `miura_ori`). -/
structure Segment where
  x1 : ℝ
  y1 : ℝ
  x2 : ℝ
  y2 : ℝ
  lineType : LineType

/-- `clip_x(x) = max(0.0, min(x, width))` from `miura_ori`. -/
noncomputable def clipX (width x : ℝ) : ℝ := max 0 (min x width)

/-- `clip_y(y) = max(0.0, min(y, height))` from `miura_ori`. -/
noncomputable def clipY (height y : ℝ) : ℝ := max 0 (min y height)

/-- `add_line(start_x, start_y, end_x, end_y, line_type)` from `miura_ori`:
scales cell coordinates by the cell dimensions, shifts `y` down by
`height_cut`, clips both coordinates to the drawing bounds, and hands
the result to `line_func`. -/
noncomputable def addLine (cellWidth cellHeight heightCut width height : ℝ)
    (sx sy ex ey : ℝ) (lineType : LineType) : Segment :=
  ⟨clipX width (sx * cellWidth), clipY height (sy * cellHeight - heightCut),
   clipX width (ex * cellWidth), clipY height (ey * cellHeight - heightCut),
   lineType⟩

/-- `angle_offset(angle) = cell_width / cell_height * tan(angle)`. -/
noncomputable def angleOffset (cellWidth cellHeight angle : ℝ) : ℝ :=
  cellWidth / cellHeight * Real.tan angle

/-- `cells_hor = floor(target_width / cell_width)` (`pgen.py` line 138). -/
noncomputable def cellsHorOf (targetWidth cellWidth : ℝ) : ℤ :=
  ⌊targetWidth / cellWidth⌋

/-- `cells_vert = floor(target_height / cell_height)` (`pgen.py` line 139). -/
noncomputable def cellsVertOf (targetHeight cellHeight : ℝ) : ℤ :=
  ⌊targetHeight / cellHeight⌋

/-- `height_cut = cell_height * tan(alpha)` (`pgen.py` line 140). -/
noncomputable def heightCutOf (alpha cellHeight : ℝ) : ℝ :=
  cellHeight * Real.tan alpha

/-- `width = cells_hor * cell_width` (`pgen.py` line 141). -/
noncomputable def patternWidth (targetWidth cellWidth : ℝ) : ℝ :=
  (cellsHorOf targetWidth cellWidth : ℝ) * cellWidth

/-- `height = cells_vert * cell_height - height_cut` (`pgen.py` line 142). -/
noncomputable def patternHeight (alpha targetHeight cellHeight : ℝ) : ℝ :=
  (cellsVertOf targetHeight cellHeight : ℝ) * cellHeight - heightCutOf alpha cellHeight

/-- The segment emitted for cell `(i, j)` under the guard
`if i != cells_hor - 1` (`pgen.py` lines 203-205): it connects
`(x12, y12)` to `(x22, y22)` with fold type `[VALLEY, MOUNTAIN][(i + j) % 2]`;
the guard failing yields no segment. -/
noncomputable def cellSegsI (alpha beta cellWidth cellHeight heightCut width height : ℝ)
    (cellsHor : ℤ) (i j : ℕ) : List Segment :=
  let offsetRight : ℝ := 1 - (i % 2 : ℕ)
  let offsetTop : ℝ :=
    angleOffset cellWidth cellHeight ([beta, alpha].get ⟨j % 2, by show j % 2 < 2; omega⟩)
  let offsetBottom : ℝ :=
    angleOffset cellWidth cellHeight ([alpha, beta].get ⟨j % 2, by show j % 2 < 2; omega⟩)
  let x12 : ℝ := (i : ℝ) + 1
  let x22 : ℝ := (i : ℝ) + 1
  let y12 : ℝ := if 0 < j then (j : ℝ) + offsetRight * offsetTop else 0
  let y22 : ℝ := (j : ℝ) + 1 + offsetRight * offsetBottom
  if (i : ℤ) ≠ cellsHor - 1 then
    [addLine cellWidth cellHeight heightCut width height x12 y12 x22 y22
      ([LineType.VALLEY, LineType.MOUNTAIN].get ⟨(i + j) % 2, by show (i + j) % 2 < 2; omega⟩)]
  else []

/-- The segment emitted for cell `(i, j)` under the guard
`if j != cells_vert - 1` (`pgen.py` lines 206-208): it connects
`(x21, y21)` to `(x22, y22)` with fold type `[MOUNTAIN, VALLEY][j % 2]`;
the guard failing yields no segment. -/
noncomputable def cellSegsJ (alpha beta cellWidth cellHeight heightCut width height : ℝ)
    (cellsVert : ℤ) (i j : ℕ) : List Segment :=
  let offsetLeft : ℝ := (i % 2 : ℕ)
  let offsetRight : ℝ := 1 - (i % 2 : ℕ)
  let offsetTop : ℝ :=
    angleOffset cellWidth cellHeight ([beta, alpha].get ⟨j % 2, by show j % 2 < 2; omega⟩)
  let offsetBottom : ℝ :=
    angleOffset cellWidth cellHeight ([alpha, beta].get ⟨j % 2, by show j % 2 < 2; omega⟩)
  let x21 : ℝ := (i : ℝ)
  let x22 : ℝ := (i : ℝ) + 1
  let y21 : ℝ := if 0 < j then (j : ℝ) + offsetLeft * offsetTop else 0
  let y22 : ℝ := (j : ℝ) + 1 + offsetRight * offsetBottom
  if (j : ℤ) ≠ cellsVert - 1 then
    [addLine cellWidth cellHeight heightCut width height x21 y21 x22 y22
      ([LineType.MOUNTAIN, LineType.VALLEY].get ⟨j % 2, by show j % 2 < 2; omega⟩)]
  else []

/-- The four `# Edges` calls of `miura_ori` (`pgen.py` lines 183-186):
the bounding rectangle, traversed `(0,0) → (cells_hor,0) → (cells_hor,cells_vert) → (0,cells_vert) → (0,0)`. -/
noncomputable def edgeSegments (cellWidth cellHeight heightCut width height : ℝ)
    (cellsHor cellsVert : ℤ) : List Segment :=
  [addLine cellWidth cellHeight heightCut width height 0 0 (cellsHor : ℝ) 0 LineType.EDGE,
   addLine cellWidth cellHeight heightCut width height (cellsHor : ℝ) 0 (cellsHor : ℝ) (cellsVert : ℝ) LineType.EDGE,
   addLine cellWidth cellHeight heightCut width height (cellsHor : ℝ) (cellsVert : ℝ) 0 (cellsVert : ℝ) LineType.EDGE,
   addLine cellWidth cellHeight heightCut width height 0 (cellsVert : ℝ) 0 0 LineType.EDGE]

/-- The `# grid` double loop of `miura_ori` (`pgen.py` lines 189-208):
`for i in range(cells_hor): for j in range(cells_vert): ...`
(`range` of a negative count is empty, hence `Int.toNat`). -/
noncomputable def gridSegments (alpha beta cellWidth cellHeight heightCut width height : ℝ)
    (cellsHor cellsVert : ℤ) : List Segment :=
  (List.range cellsHor.toNat).flatMap fun i =>
    (List.range cellsVert.toNat).flatMap fun j =>
      cellSegsI alpha beta cellWidth cellHeight heightCut width height cellsHor i j ++
      cellSegsJ alpha beta cellWidth cellHeight heightCut width height cellsVert i j

/-- The Tessellator (`pgen.py` lines 138-142 and 183-208): the ordered
stream of segments `miura_ori` hands to `line_func`, given the solved
`alpha` and the remaining geometry parameters. -/
noncomputable def tessellate (alpha beta cellWidth cellHeight targetWidth targetHeight : ℝ) :
    List Segment :=
  edgeSegments cellWidth cellHeight (heightCutOf alpha cellHeight)
    (patternWidth targetWidth cellWidth) (patternHeight alpha targetHeight cellHeight)
    (cellsHorOf targetWidth cellWidth) (cellsVertOf targetHeight cellHeight) ++
  gridSegments alpha beta cellWidth cellHeight (heightCutOf alpha cellHeight)
    (patternWidth targetWidth cellWidth) (patternHeight alpha targetHeight cellHeight)
    (cellsHorOf targetWidth cellWidth) (cellsVertOf targetHeight cellHeight)

/-- Spec error taxonomy (section 7): `degenerateGeometry` covers the
ZeroDivisionError / math domain ValueError raised during the angle and
grid derivation; `feasibility` covers the two `assert` statements
(`alpha >= beta`, `smallest_cell_side >= 0`). -/
inductive PgenError where
  | degenerateGeometry
  | feasibility
deriving DecidableEq, Repr

/-- `miura_ori` as a whole pass: each possible raise point of the Python
code, in source order, becomes an `.error`; a successful pass returns
`.ok` with the segment stream handed to `line_func` (the drawing
document that gets saved).  Raise points, in the order the interpreter
reaches them:
1. `sqrt` of a negative operand (ValueError, line 129);
2. division by a zero denominator inside the `asin` argument
   (ZeroDivisionError, lines 128-130);
3. `asin` of an argument outside `[-1, 1]` (ValueError, line 127);
4. `target_width / cell_width` with `cell_width = 0` (ZeroDivisionError, line 138);
5. `target_height / cell_height` with `cell_height = 0` (ZeroDivisionError, line 139);
6. `assert alpha >= beta` (line 144);
7. `assert smallest_cell_side >= 0` (line 145).
All of these precede the drawing creation (line 160), every `add_line`
call (lines 183-208) and the final `dwg.save` (line 210), so an error
means no segment reaches a renderer and no document is saved. -/
noncomputable def miuraOri (radius beta targetWidth targetHeight cellWidth cellHeight : ℝ) :
    Except PgenError (List Segment) :=
  if radius ^ 2 + cellHeight ^ 2 - 2 * radius * cellHeight * Real.cos beta < 0 then
    Except.error PgenError.degenerateGeometry
  else if solverDenom radius cellHeight beta = 0 then
    Except.error PgenError.degenerateGeometry
  else if 1 < |asinArg radius cellHeight beta| then
    Except.error PgenError.degenerateGeometry
  else if cellWidth = 0 then
    Except.error PgenError.degenerateGeometry
  else if cellHeight = 0 then
    Except.error PgenError.degenerateGeometry
  else if ¬ beta ≤ alphaOf radius cellHeight beta then
    Except.error PgenError.feasibility
  else if ¬ 0 ≤ smallestCellSide radius beta cellWidth cellHeight then
    Except.error PgenError.feasibility
  else
    Except.ok (tessellate (alphaOf radius cellHeight beta) beta cellWidth cellHeight
      targetWidth targetHeight)

/-! ## Dash-layout lemmas (renderer) -/

theorem dashLoop_le (L : ℝ) (n : ℕ) : n ≤ dashLoop L n := by
  induction n using dashLoop.induct L with
  | case1 n h ih =>
    rw [dashLoop, dif_pos h]
    omega
  | case2 n h =>
    rw [dashLoop, dif_neg h]

theorem dashLoop_not_fits (L : ℝ) (n : ℕ) :
    ¬ ((dashLoop L n : ℝ) * dashLengthPt + ((dashLoop L n : ℝ) - 1) * gapLengthPt ≤ L) := by
  induction n using dashLoop.induct L with
  | case1 n h ih =>
    rw [dashLoop, dif_pos h]
    exact ih
  | case2 n h =>
    rw [dashLoop, dif_neg h]
    exact h

theorem dashCount_pos (L : ℝ) : 1 ≤ dashCount L :=
  dashLoop_le L 1

theorem dashCount_not_fits (L : ℝ) :
    ¬ ((dashCount L : ℝ) * dashLengthPt + ((dashCount L : ℝ) - 1) * gapLengthPt ≤ L) :=
  dashLoop_not_fits L 1

theorem dashLoop_fits_below (L : ℝ) (n : ℕ) :
    ∀ k : ℕ, n ≤ k → k < dashLoop L n →
      (k : ℝ) * dashLengthPt + ((k : ℝ) - 1) * gapLengthPt ≤ L := by
  induction n using dashLoop.induct L with
  | case1 n h ih =>
    intro k hk1 hk2
    rw [dashLoop, dif_pos h] at hk2
    rcases eq_or_lt_of_le hk1 with heq | hlt
    · subst heq
      exact h
    · exact ih k hlt hk2
  | case2 n h =>
    intro k hk1 hk2
    rw [dashLoop, dif_neg h] at hk2
    omega

theorem dashCount_fits_below (L : ℝ) :
    ∀ m : ℕ, 1 ≤ m → m < dashCount L →
      (m : ℝ) * dashLengthPt + ((m : ℝ) - 1) * gapLengthPt ≤ L :=
  dashLoop_fits_below L 1

theorem dashCount_fourteen : dashCount 14 = 2 := by
  rw [dashCount, dashLoop, dif_pos (by norm_num [dashLengthPt, gapLengthPt])]
  rw [dashLoop, dif_neg (by norm_num [dashLengthPt, gapLengthPt])]

theorem lineLength_c1_segment : lineLengthPt 0 0 (127 / 180) 0 = 14 := by
  rw [lineLengthPt, fullLineLengthPt]
  rw [show ((127 : ℝ) / 180 - 0) ^ 2 + ((0 : ℝ) - 0) ^ 2 = (127 / 180) ^ 2 by norm_num]
  rw [Real.sqrt_sq (by norm_num : (0 : ℝ) ≤ 127 / 180)]
  norm_num [PT_PER_UNIT, safeZonePt]

theorem fullLineLength_unit_segment : fullLineLengthPt 0 0 1 0 = 3600 / 127 := by
  rw [fullLineLengthPt]
  rw [show ((1 : ℝ) - 0) ^ 2 + ((0 : ℝ) - 0) ^ 2 = 1 by norm_num]
  rw [Real.sqrt_one]
  norm_num [PT_PER_UNIT]

theorem lineLength_unit_segment : lineLengthPt 0 0 1 0 = 2838 / 127 := by
  rw [lineLengthPt, fullLineLength_unit_segment]
  norm_num [safeZonePt]

/-- C1: FALSE on the code.  For the VALLEY segment from `(0,0)` to
`(127/180, 0)` the usable length is `14`pt; the maximal count whose dash
pattern fits is `1` (`1·7.2 + 0·7.2 = 7.2 ≤ 14` but `2·7.2 + 1·7.2 = 21.6 > 14`),
yet the loop of `lasercutter_base_line` leaves `dash_count = 2`: it
increments past the first failing count and never backs off by one. -/
theorem c1_dash_count_counterexample :
    lineLengthPt 0 0 (127 / 180) 0 = 14 ∧
    dashCount 14 = 2 ∧
    ((1 : ℝ) * dashLengthPt + ((1 : ℝ) - 1) * gapLengthPt ≤ 14) ∧
    ¬ ((2 : ℝ) * dashLengthPt + ((2 : ℝ) - 1) * gapLengthPt ≤ 14) := by
  refine ⟨lineLength_c1_segment, dashCount_fourteen, ?_, ?_⟩ <;>
    norm_num [dashLengthPt, gapLengthPt]

/-- C1 (amended): for every segment whose usable length `L` is strictly
positive, the `dash_count` used by `lasercutter_base_line` (hence by
both laser variants) is the SMALLEST integer `n ≥ 1` with
`n·7.2 + (n−1)·7.2 > L`: the count used is at least `1`, its pattern
overshoots `L`, EVERY count `m` with `1 ≤ m < dash_count` still fits
(`m·7.2 + (m−1)·7.2 ≤ L` — this is the minimality direction), and
conversely every fitting count is below `dash_count` (so `dash_count`
is one more than the largest fitting count whenever some count fits). -/
theorem c1_dash_count_least_overshoot (x1 y1 x2 y2 L : ℝ)
    (_hL : L = lineLengthPt x1 y1 x2 y2) (_hpos : 0 < L) :
    1 ≤ dashCount L ∧
    L < (dashCount L : ℝ) * dashLengthPt + ((dashCount L : ℝ) - 1) * gapLengthPt ∧
    (∀ m : ℕ, 1 ≤ m → m < dashCount L →
      (m : ℝ) * dashLengthPt + ((m : ℝ) - 1) * gapLengthPt ≤ L) ∧
    ∀ m : ℕ, 1 ≤ m →
      (m : ℝ) * dashLengthPt + ((m : ℝ) - 1) * gapLengthPt ≤ L → m < dashCount L := by
  refine ⟨dashCount_pos L, not_le.1 (dashCount_not_fits L), dashCount_fits_below L, ?_⟩
  intro m hm hfit
  have hnot := dashCount_not_fits L
  have hd : dashLengthPt = (7.2 : ℝ) := rfl
  have hg : gapLengthPt = (7.2 : ℝ) := rfl
  rw [hd, hg] at hfit hnot
  have hlt : (m : ℝ) < (dashCount L : ℝ) := by nlinarith
  exact_mod_cast hlt

/-- Witness for the amended C1 at the concrete segment
`(0,0) → (127/180, 0)` (usable length `14`pt). -/
theorem c1_dash_count_least_overshoot_witness :
    (14 : ℝ) = lineLengthPt 0 0 (127 / 180) 0 ∧ (0 : ℝ) < 14 ∧
    1 ≤ dashCount 14 ∧
    (14 : ℝ) < (dashCount 14 : ℝ) * dashLengthPt + ((dashCount 14 : ℝ) - 1) * gapLengthPt :=
  ⟨lineLength_c1_segment.symm, by norm_num,
   (c1_dash_count_least_overshoot 0 0 (127 / 180) 0 14 lineLength_c1_segment.symm
      (by norm_num)).1,
   (c1_dash_count_least_overshoot 0 0 (127 / 180) 0 14 lineLength_c1_segment.symm
      (by norm_num)).2.1⟩

/-- C2: FALSE on the code.  For the same segment (usable length `14`pt)
the code computes `dash_offset = (2·7.2 + 1·7.2 − 14)/2 = 19/5`, and
`2·dash_offset + dash_count·7.2 + (dash_count−1)·7.2 = 146/5 ≠ 14`: the
claimed identity fails because the dash pattern overshoots (it never
fits within) the usable length. -/
theorem c2_dash_offset_counterexample :
    lineLengthPt 0 0 (127 / 180) 0 = 14 ∧
    dashOffsetOf 14 = 19 / 5 ∧
    ¬ (2 * dashOffsetOf 14 +
        (dashCount 14 : ℝ) * dashLengthPt + ((dashCount 14 : ℝ) - 1) * gapLengthPt = 14) := by
  have hoff : dashOffsetOf 14 = 19 / 5 := by
    rw [dashOffsetOf, dashCount_fourteen]
    norm_num [dashLengthPt, gapLengthPt]
  refine ⟨lineLength_c1_segment, hoff, ?_⟩
  rw [hoff, dashCount_fourteen]
  norm_num [dashLengthPt, gapLengthPt]

/-- C2 (amended): for every segment with strictly positive usable
length, the dash-offset parameter fed to the backend satisfies
`2·dash_offset + usable_length = dash_count·7.2 + (dash_count−1)·7.2`
with `dash_offset > 0`: the pattern overshoots the usable length and the
overshoot is split evenly between the two ends (the slack of the spec's
own formula `slack = pattern − usable`, halved). -/
theorem c2_dash_offset_reconstruction (x1 y1 x2 y2 L : ℝ)
    (_hL : L = lineLengthPt x1 y1 x2 y2) (_hpos : 0 < L) :
    2 * dashOffsetOf L + L =
      (dashCount L : ℝ) * dashLengthPt + ((dashCount L : ℝ) - 1) * gapLengthPt ∧
    0 < dashOffsetOf L := by
  constructor
  · rw [dashOffsetOf]; ring
  · have hnot := dashCount_not_fits L
    rw [dashOffsetOf]
    have := not_le.1 hnot
    linarith

/-- Witness for the amended C2 at the concrete segment
`(0,0) → (127/180, 0)` (usable length `14`pt). -/
theorem c2_dash_offset_reconstruction_witness :
    (14 : ℝ) = lineLengthPt 0 0 (127 / 180) 0 ∧ (0 : ℝ) < 14 ∧
    (2 * dashOffsetOf 14 + 14 =
        (dashCount 14 : ℝ) * dashLengthPt + ((dashCount 14 : ℝ) - 1) * gapLengthPt ∧
      0 < dashOffsetOf 14) :=
  ⟨lineLength_c1_segment.symm, by norm_num,
   c2_dash_offset_reconstruction 0 0 (127 / 180) 0 14 lineLength_c1_segment.symm
     (by norm_num)⟩

/-- C3: FALSE on the code.  For the VALLEY segment from `(0,0)` to
`(1,0)` (full length `3600/127`pt, trim parameter `t = 127/1200`), the
emitted dashed primitive STARTS at x-coordinate `1073/1200`
(`weighted_average(x1, x2, t) = x1·t + x2·(1−t)`, the interpolation at
the COMPLEMENT `1 − t` from `p1`), not at the claimed
`p1 + t·(p2 − p1) = 127/1200`: start and end are swapped relative to
the claim. -/
theorem c3_trim_counterexample :
    lasercutterBaseLine 2 0 0 1 0 LineType.VALLEY =
      Emitted.dashed (1073 / 1200) 0 (127 / 1200) 0 2 dashLengthPt gapLengthPt
        (dashOffsetOf (lineLengthPt 0 0 1 0)) ∧
    (0 : ℝ) + safeZonePt / fullLineLengthPt 0 0 1 0 * (1 - 0) = 127 / 1200 ∧
    (1073 / 1200 : ℝ) ≠ 127 / 1200 := by
  refine ⟨?_, ?_, by norm_num⟩
  · rw [lasercutterBaseLine]
    rw [if_neg (by decide : ¬ (LineType.VALLEY = LineType.EDGE))]
    rw [if_neg (by rw [lineLength_unit_segment]; norm_num)]
    rw [fullLineLength_unit_segment]
    norm_num [weightedAverage, safeZonePt]
  · rw [fullLineLength_unit_segment]
    norm_num [safeZonePt]

/-- C3 (amended): for every non-EDGE segment with strictly positive
usable length, the dashed primitive spans between the two
safe-zone-trimmed points, but with the roles swapped relative to the
claim: its start is the interpolation of `(p1, p2)` at the COMPLEMENT
parameter `1 − t` (i.e. `p1 + (1−t)·(p2−p1)`, the trimmed point near
`p2`) and its end is the interpolation at `t = safe_zone/full_length`
(i.e. `p1 + t·(p2−p1)`, the trimmed point near `p1`) — not the original
endpoints, and not in the claimed order. -/
theorem c3_trim_swapped (thicknessPt x1 y1 x2 y2 : ℝ) (lineType : LineType)
    (hlt : lineType ≠ LineType.EDGE) (hpos : 0 < lineLengthPt x1 y1 x2 y2) :
    lasercutterBaseLine thicknessPt x1 y1 x2 y2 lineType =
      Emitted.dashed
        (x1 + (1 - safeZonePt / fullLineLengthPt x1 y1 x2 y2) * (x2 - x1))
        (y1 + (1 - safeZonePt / fullLineLengthPt x1 y1 x2 y2) * (y2 - y1))
        (x1 + safeZonePt / fullLineLengthPt x1 y1 x2 y2 * (x2 - x1))
        (y1 + safeZonePt / fullLineLengthPt x1 y1 x2 y2 * (y2 - y1))
        thicknessPt dashLengthPt gapLengthPt
        (dashOffsetOf (lineLengthPt x1 y1 x2 y2)) := by
  rw [lasercutterBaseLine, if_neg hlt, if_neg (not_le.2 hpos)]
  congr 1 <;> · rw [weightedAverage]; ring

/-- Witness for the amended C3 at the concrete segment `(0,0) → (1,0)`. -/
theorem c3_trim_swapped_witness :
    LineType.VALLEY ≠ LineType.EDGE ∧ 0 < lineLengthPt 0 0 1 0 ∧
    lasercutterBaseLine 2 0 0 1 0 LineType.VALLEY =
      Emitted.dashed
        (0 + (1 - safeZonePt / fullLineLengthPt 0 0 1 0) * (1 - 0))
        (0 + (1 - safeZonePt / fullLineLengthPt 0 0 1 0) * (0 - 0))
        (0 + safeZonePt / fullLineLengthPt 0 0 1 0 * (1 - 0))
        (0 + safeZonePt / fullLineLengthPt 0 0 1 0 * (0 - 0))
        2 dashLengthPt gapLengthPt (dashOffsetOf (lineLengthPt 0 0 1 0)) :=
  ⟨by decide, by rw [lineLength_unit_segment]; norm_num,
   c3_trim_swapped 2 0 0 1 0 LineType.VALLEY (by decide)
     (by rw [lineLength_unit_segment]; norm_num)⟩

/-! ## Angle-solver lemmas -/

theorem solver_radicand_pos (radius cellHeight beta : ℝ)
    (hR : 0 < radius) (hh : 0 < cellHeight) (hb0 : 0 < beta) (hb : beta < Real.pi / 2) :
    0 < radius ^ 2 + cellHeight ^ 2 - 2 * radius * cellHeight * Real.cos beta := by
  have hpi := Real.pi_pos
  have hcos : Real.cos beta < 1 := by
    have h1 : Real.cos beta < Real.cos 0 :=
      Real.cos_lt_cos_of_nonneg_of_le_pi le_rfl (by linarith) hb0
    rwa [Real.cos_zero] at h1
  nlinarith [sq_nonneg (radius - cellHeight), mul_pos hR hh]

theorem solverDenom_pos (radius cellHeight beta : ℝ)
    (hR : 0 < radius) (hh : 0 < cellHeight) (hb0 : 0 < beta) (hb : beta < Real.pi / 2) :
    0 < solverDenom radius cellHeight beta :=
  Real.sqrt_pos.2 (solver_radicand_pos radius cellHeight beta hR hh hb0 hb)

theorem asinArg_nonneg (radius cellHeight beta : ℝ)
    (hh : 0 ≤ cellHeight) (hb0 : 0 ≤ beta) (hb : beta ≤ Real.pi) :
    0 ≤ asinArg radius cellHeight beta :=
  div_nonneg (mul_nonneg hh (Real.sin_nonneg_of_nonneg_of_le_pi hb0 hb))
    (Real.sqrt_nonneg _)

theorem asinArg_le_one (radius cellHeight beta : ℝ)
    (hR : 0 < radius) (hh : 0 < cellHeight) (hb0 : 0 < beta) (hb : beta < Real.pi / 2) :
    asinArg radius cellHeight beta ≤ 1 := by
  have hpi := Real.pi_pos
  have hrad := solver_radicand_pos radius cellHeight beta hR hh hb0 hb
  have hsin : 0 ≤ Real.sin beta :=
    Real.sin_nonneg_of_nonneg_of_le_pi hb0.le (by linarith)
  have hnum : 0 ≤ cellHeight * Real.sin beta := mul_nonneg hh.le hsin
  rw [asinArg, div_le_one (solverDenom_pos radius cellHeight beta hR hh hb0 hb)]
  rw [solverDenom]
  rw [Real.le_sqrt hnum hrad.le]
  nlinarith [Real.sin_sq_add_cos_sq beta, sq_nonneg (radius - cellHeight * Real.cos beta)]

theorem deltaOf_nonneg (radius cellHeight beta : ℝ)
    (hh : 0 ≤ cellHeight) (hb0 : 0 ≤ beta) (hb : beta ≤ Real.pi) :
    0 ≤ deltaOf radius cellHeight beta :=
  Real.arcsin_nonneg.2 (asinArg_nonneg radius cellHeight beta hh hb0 hb)

/-- C4: CONFIRMED.  For every radius `R > 0`, cell height `h > 0` and
base angle `β ∈ (0, π/2)`, the angle solver computes
`δ = asin(h·sin β / sqrt(R² + h² − 2·R·h·cos β))` and returns
`α = β + δ`, and `α ≥ β` always holds — the `assert alpha >= beta` of
`pgen.py` line 144 never fires, so `miura_ori` never silently continues
with `alpha < beta` (the only other outcome of the assert is the raise
the claim allows for). -/
theorem c4_alpha_ge_beta (radius cellHeight beta : ℝ)
    (_hR : 0 < radius) (hh : 0 < cellHeight) (hb0 : 0 < beta) (hb : beta < Real.pi / 2) :
    alphaOf radius cellHeight beta =
      beta + Real.arcsin (cellHeight * Real.sin beta /
        Real.sqrt (radius ^ 2 + cellHeight ^ 2 - 2 * radius * cellHeight * Real.cos beta)) ∧
    beta ≤ alphaOf radius cellHeight beta := by
  have hpi := Real.pi_pos
  have hd := deltaOf_nonneg radius cellHeight beta hh.le hb0.le (by linarith)
  exact ⟨rfl, by rw [alphaOf]; linarith⟩

/-- Witness for C4 at `R = 1`, `h = 1`, `β = π/3`. -/
theorem c4_alpha_ge_beta_witness :
    (0 : ℝ) < 1 ∧ (0 : ℝ) < 1 ∧ 0 < Real.pi / 3 ∧ Real.pi / 3 < Real.pi / 2 ∧
    Real.pi / 3 ≤ alphaOf 1 1 (Real.pi / 3) :=
  ⟨one_pos, one_pos, by positivity, by linarith [Real.pi_pos],
   (c4_alpha_ge_beta 1 1 (Real.pi / 3) one_pos one_pos (by positivity)
      (by linarith [Real.pi_pos])).2⟩

/-- C10: CONFIRMED.  For every `R > 0`, `h > 0`, `β ∈ (0, π/2)`: the
solver's denominator is strictly positive (no ZeroDivisionError), the
`asin` argument lies in `[0, 1]` (no math domain error — the
law-of-sines chord bound `radicand − (h·sin β)² = (R − h·cos β)² ≥ 0`),
hence `δ ∈ [0, π/2]` and the assertion `alpha >= beta` can never fail. -/
theorem c10_solver_total (radius cellHeight beta : ℝ)
    (hR : 0 < radius) (hh : 0 < cellHeight) (hb0 : 0 < beta) (hb : beta < Real.pi / 2) :
    0 < solverDenom radius cellHeight beta ∧
    0 ≤ asinArg radius cellHeight beta ∧
    asinArg radius cellHeight beta ≤ 1 ∧
    0 ≤ deltaOf radius cellHeight beta ∧
    deltaOf radius cellHeight beta ≤ Real.pi / 2 ∧
    beta ≤ alphaOf radius cellHeight beta := by
  have hpi := Real.pi_pos
  have hd := deltaOf_nonneg radius cellHeight beta hh.le hb0.le (by linarith)
  refine ⟨solverDenom_pos radius cellHeight beta hR hh hb0 hb,
    asinArg_nonneg radius cellHeight beta hh.le hb0.le (by linarith),
    asinArg_le_one radius cellHeight beta hR hh hb0 hb,
    hd, Real.arcsin_le_pi_div_two _, by rw [alphaOf]; linarith⟩

/-- Witness for C10 at `R = 1`, `h = 1`, `β = π/3`. -/
theorem c10_solver_total_witness :
    (0 : ℝ) < 1 ∧ (0 : ℝ) < 1 ∧ 0 < Real.pi / 3 ∧ Real.pi / 3 < Real.pi / 2 ∧
    (0 < solverDenom 1 1 (Real.pi / 3) ∧
      0 ≤ asinArg 1 1 (Real.pi / 3) ∧
      asinArg 1 1 (Real.pi / 3) ≤ 1 ∧
      0 ≤ deltaOf 1 1 (Real.pi / 3) ∧
      deltaOf 1 1 (Real.pi / 3) ≤ Real.pi / 2 ∧
      Real.pi / 3 ≤ alphaOf 1 1 (Real.pi / 3)) :=
  ⟨one_pos, one_pos, by positivity, by linarith [Real.pi_pos],
   c10_solver_total 1 1 (Real.pi / 3) one_pos one_pos (by positivity)
     (by linarith [Real.pi_pos])⟩

/-- C5: CONFIRMED.  For every radius, base angle, target size and cell
width, calling the pattern generator with `cell_height = 0` produces a
`DegenerateGeometryError` (in the Python source: a ZeroDivisionError —
at `floor(target_height / cell_height)` when `radius ≠ 0` and
`cell_width ≠ 0`, or already inside the `asin` argument when
`radius = 0`, or at `floor(target_width / cell_width)` when
`cell_width = 0`).  In the embedding the error result carries no segment
list, and every raise point modelled in `miuraOri` precedes (in source
order) the drawing creation, every `add_line` call and `dwg.save`, so no
segment reaches a renderer and no (partial) document is saved. -/
theorem c5_zero_cell_height_aborts (radius beta targetWidth targetHeight cellWidth : ℝ) :
    miuraOri radius beta targetWidth targetHeight cellWidth 0 =
      Except.error PgenError.degenerateGeometry := by
  rw [miuraOri]
  rw [if_neg (by push_neg; nlinarith [sq_nonneg radius] :
    ¬ (radius ^ 2 + (0 : ℝ) ^ 2 - 2 * radius * 0 * Real.cos beta < 0))]
  by_cases hd : solverDenom radius 0 beta = 0
  · rw [if_pos hd]
  · rw [if_neg hd]
    have harg : asinArg radius 0 beta = 0 := by
      rw [asinArg]
      simp
    rw [if_neg (by rw [harg]; norm_num)]
    by_cases hcw : cellWidth = 0
    · rw [if_pos hcw]
    · rw [if_neg hcw, if_pos rfl]

/-! ## Tessellator lemmas -/

theorem cellSegsI_map_lineType (alpha beta cw ch hc w h : ℝ) (cellsHor : ℤ) (i j : ℕ)
    (hguard : (i : ℤ) ≠ cellsHor - 1) :
    (cellSegsI alpha beta cw ch hc w h cellsHor i j).map Segment.lineType =
      [if (i + j) % 2 = 0 then LineType.VALLEY else LineType.MOUNTAIN] := by
  rw [cellSegsI]
  simp only [if_pos hguard, List.map]
  rcases Nat.mod_two_eq_zero_or_one (i + j) with hp | hp <;> simp [addLine, hp]

theorem cellSegsI_eq_nil (alpha beta cw ch hc w h : ℝ) (cellsHor : ℤ) (i j : ℕ)
    (hguard : (i : ℤ) = cellsHor - 1) :
    cellSegsI alpha beta cw ch hc w h cellsHor i j = [] := by
  rw [cellSegsI]
  simp only [hguard]
  simp

theorem cellSegsJ_map_lineType (alpha beta cw ch hc w h : ℝ) (cellsVert : ℤ) (i j : ℕ)
    (hguard : (j : ℤ) ≠ cellsVert - 1) :
    (cellSegsJ alpha beta cw ch hc w h cellsVert i j).map Segment.lineType =
      [if j % 2 = 0 then LineType.MOUNTAIN else LineType.VALLEY] := by
  rw [cellSegsJ]
  simp only [if_pos hguard, List.map]
  rcases Nat.mod_two_eq_zero_or_one j with hp | hp <;> simp [addLine, hp]

theorem cellSegsJ_eq_nil (alpha beta cw ch hc w h : ℝ) (cellsVert : ℤ) (i j : ℕ)
    (hguard : (j : ℤ) = cellsVert - 1) :
    cellSegsJ alpha beta cw ch hc w h cellsVert i j = [] := by
  rw [cellSegsJ]
  simp only [hguard]
  simp

/-- C6: CONFIRMED.  For every cell `(i, j)`: the segment guarded by
`i != cells_hor - 1` is emitted exactly when `i` is not the last column,
with fold type VALLEY for `(i+j) mod 2 = 0` and MOUNTAIN for
`(i+j) mod 2 = 1`; the segment guarded by `j != cells_vert - 1` is
emitted exactly when `j` is not the last row, with fold type MOUNTAIN
for `j mod 2 = 0` and VALLEY for `j mod 2 = 1`.  In particular, for
`cells_hor = 4` the fold types of the first family along row `j = 0`
are VALLEY, MOUNTAIN, VALLEY for `i = 0, 1, 2`, and no such segment
exists at `i = 3`. -/
theorem c6_fold_type_alternation :
    (∀ (alpha beta cw ch hc w h : ℝ) (cellsHor : ℤ) (i j : ℕ),
      ((i : ℤ) ≠ cellsHor - 1 →
        (cellSegsI alpha beta cw ch hc w h cellsHor i j).map Segment.lineType =
          [if (i + j) % 2 = 0 then LineType.VALLEY else LineType.MOUNTAIN]) ∧
      ((i : ℤ) = cellsHor - 1 → cellSegsI alpha beta cw ch hc w h cellsHor i j = [])) ∧
    (∀ (alpha beta cw ch hc w h : ℝ) (cellsVert : ℤ) (i j : ℕ),
      ((j : ℤ) ≠ cellsVert - 1 →
        (cellSegsJ alpha beta cw ch hc w h cellsVert i j).map Segment.lineType =
          [if j % 2 = 0 then LineType.MOUNTAIN else LineType.VALLEY]) ∧
      ((j : ℤ) = cellsVert - 1 → cellSegsJ alpha beta cw ch hc w h cellsVert i j = [])) ∧
    (∀ (alpha beta cw ch hc w h : ℝ),
      (List.range 4).map
          (fun i => (cellSegsI alpha beta cw ch hc w h 4 i 0).map Segment.lineType) =
        [[LineType.VALLEY], [LineType.MOUNTAIN], [LineType.VALLEY], []]) := by
  refine ⟨fun alpha beta cw ch hc w h cellsHor i j =>
      ⟨cellSegsI_map_lineType alpha beta cw ch hc w h cellsHor i j,
       cellSegsI_eq_nil alpha beta cw ch hc w h cellsHor i j⟩,
    fun alpha beta cw ch hc w h cellsVert i j =>
      ⟨cellSegsJ_map_lineType alpha beta cw ch hc w h cellsVert i j,
       cellSegsJ_eq_nil alpha beta cw ch hc w h cellsVert i j⟩,
    fun alpha beta cw ch hc w h => ?_⟩
  have h0 := cellSegsI_map_lineType alpha beta cw ch hc w h 4 0 0 (by decide)
  have h1 := cellSegsI_map_lineType alpha beta cw ch hc w h 4 1 0 (by decide)
  have h2 := cellSegsI_map_lineType alpha beta cw ch hc w h 4 2 0 (by decide)
  have h3 := cellSegsI_eq_nil alpha beta cw ch hc w h 4 3 0 (by decide)
  rw [show (4 : ℕ) = 3 + 1 by norm_num, List.range_succ, List.range_succ, List.range_succ,
    List.range_succ, List.range_zero]
  simp only [List.map_append, List.map_cons, List.map_nil, List.nil_append]
  rw [h0, h1, h2, h3]
  norm_num

/-- Witness for C6: the two guard branches evaluated at a concrete
cell. -/
theorem c6_fold_type_alternation_witness :
    (cellSegsI 0 0 0 0 0 0 0 4 0 0).map Segment.lineType = [LineType.VALLEY] ∧
    cellSegsJ 0 0 0 0 0 0 0 1 0 0 = [] :=
  ⟨by
    have h := (c6_fold_type_alternation.1 0 0 0 0 0 0 0 4 0 0).1 (by decide)
    simpa using h,
   (c6_fold_type_alternation.2.1 0 0 0 0 0 0 0 1 0 0).2 (by decide)⟩

theorem clipX_mem_Icc (w x : ℝ) (hw : 0 ≤ w) : clipX w x ∈ Set.Icc 0 w :=
  ⟨le_max_left 0 _, max_le hw (min_le_right x w)⟩

theorem clipY_mem_Icc (h y : ℝ) (hh : 0 ≤ h) : clipY h y ∈ Set.Icc 0 h :=
  ⟨le_max_left 0 _, max_le hh (min_le_right y h)⟩

theorem clipX_zero_width (x : ℝ) : clipX 0 x = 0 :=
  max_eq_left (min_le_right x 0)

theorem clipY_of_nonpos_height (h y : ℝ) (hh : h ≤ 0) : clipY h y = 0 :=
  max_eq_left (le_trans (min_le_right y h) hh)

theorem one_le_sqrt_three : (1 : ℝ) ≤ Real.sqrt 3 := by
  nlinarith [Real.sq_sqrt (show (0 : ℝ) ≤ 3 by norm_num), Real.sqrt_nonneg 3]

theorem tan_pi_div_three_eq : Real.tan (Real.pi / 3) = Real.sqrt 3 := by
  rw [Real.tan_eq_sin_div_cos, Real.sin_pi_div_three, Real.cos_pi_div_three]
  ring

theorem gridSegments_eq_nil (alpha beta cw ch hc w h : ℝ) (cellsHor cellsVert : ℤ)
    (hcoll : cellsHor ≤ 0 ∨ cellsVert ≤ 0) :
    gridSegments alpha beta cw ch hc w h cellsHor cellsVert = [] := by
  rw [gridSegments]
  rcases hcoll with hc0 | hc0
  · rw [Int.toNat_of_nonpos hc0]
    rfl
  · rw [Int.toNat_of_nonpos hc0]
    simp

theorem edgeSegments_map_lineType (cw ch hc w h : ℝ) (cellsHor cellsVert : ℤ) :
    (edgeSegments cw ch hc w h cellsHor cellsVert).map Segment.lineType =
      [LineType.EDGE, LineType.EDGE, LineType.EDGE, LineType.EDGE] := by
  simp [edgeSegments, addLine]

theorem tessellate_collapse_map (alpha beta cw ch tw th : ℝ)
    (hcoll : cellsHorOf tw cw ≤ 0 ∨ cellsVertOf th ch ≤ 0) :
    (tessellate alpha beta cw ch tw th).map Segment.lineType =
      [LineType.EDGE, LineType.EDGE, LineType.EDGE, LineType.EDGE] := by
  rw [tessellate, gridSegments_eq_nil _ _ _ _ _ _ _ _ _ hcoll, List.append_nil,
    edgeSegments_map_lineType]

/-- C7 (amended): when an entire cell row/column collapses
(`cells_hor ≤ 0` or `cells_vert ≤ 0`) the stream handed to the renderer
is NOT empty: it consists of exactly the 4 EDGE segments (possibly
degenerate) and no internal segments.  (And outside this case the
Tessellator can still hand a zero-length VALLEY segment to a renderer,
see the counterexample.) -/
theorem c7_collapse_stream_is_four_edges (alpha beta cw ch tw th : ℝ)
    (hcoll : cellsHorOf tw cw ≤ 0 ∨ cellsVertOf th ch ≤ 0) :
    (tessellate alpha beta cw ch tw th).map Segment.lineType =
      [LineType.EDGE, LineType.EDGE, LineType.EDGE, LineType.EDGE] ∧
    tessellate alpha beta cw ch tw th ≠ [] := by
  have hmap := tessellate_collapse_map alpha beta cw ch tw th hcoll
  refine ⟨hmap, fun hnil => ?_⟩
  rw [hnil] at hmap
  simp at hmap

/-- Witness for the amended C7 at `α = β = 0`, cell `1 × 1`, target
`1/2 × 1` (so `cells_hor = 0`). -/
theorem c7_collapse_stream_is_four_edges_witness :
    (cellsHorOf (1/2) 1 ≤ 0 ∨ cellsVertOf 1 1 ≤ 0) ∧
    ((tessellate 0 0 1 1 (1/2) 1).map Segment.lineType =
        [LineType.EDGE, LineType.EDGE, LineType.EDGE, LineType.EDGE] ∧
      tessellate 0 0 1 1 (1/2) 1 ≠ []) :=
  ⟨Or.inl (by rw [cellsHorOf]; norm_num),
   c7_collapse_stream_is_four_edges 0 0 1 1 (1/2) 1
     (Or.inl (by rw [cellsHorOf]; norm_num))⟩

theorem cellsHor_c7 : cellsHorOf 1 (1/2 : ℝ) = 2 := by
  rw [cellsHorOf]; norm_num

theorem cellsVert_c7 : cellsVertOf 1 (1 : ℝ) = 1 := by
  rw [cellsVertOf]; norm_num

theorem heightCut_c7 : heightCutOf (Real.pi / 3) 1 = Real.sqrt 3 := by
  rw [heightCutOf, tan_pi_div_three_eq, one_mul]

theorem patternWidth_c7 : patternWidth 1 (1/2 : ℝ) = 1 := by
  rw [patternWidth, cellsHor_c7]; norm_num

theorem patternHeight_c7 : patternHeight (Real.pi / 3) 1 1 = 1 - Real.sqrt 3 := by
  rw [patternHeight, cellsVert_c7, heightCut_c7]; norm_num

theorem cellSegsI_eval_c7 :
    cellSegsI (Real.pi / 3) (Real.pi / 6) (1/2) 1 (Real.sqrt 3) 1 (1 - Real.sqrt 3) 2 0 0 =
      [⟨1/2, 0, 1/2, 0, LineType.VALLEY⟩] := by
  have hle : (1 : ℝ) - Real.sqrt 3 ≤ 0 := by linarith [one_le_sqrt_three]
  simp only [cellSegsI]
  rw [if_pos (by decide : ((0 : ℕ) : ℤ) ≠ 2 - 1)]
  simp only [addLine, tan_pi_div_three_eq, angleOffset]
  rw [clipY_of_nonpos_height _ _ hle, clipY_of_nonpos_height _ _ hle]
  norm_num [clipX, min_def, max_def]

/-- C7: FALSE on the code.  With `α = π/3`, `β = π/6` (the solver's
output for `R = √3, h = 1, β = π/6`), `cell = 1/2 × 1` and
`target = 1 × 1`, the grid is `2 × 1` — no cell row or column collapses
and the target dimensions are nonzero — yet the Tessellator hands the
renderer the zero-length VALLEY segment `(1/2, 0) → (1/2, 0)`: the
drawing height `1 − √3` is negative, so clipping collapses the internal
segment to a point.  (The collapse case is also not an empty stream,
see the amended theorem.) -/
theorem c7_degenerate_valley_counterexample :
    Segment.mk (1/2 : ℝ) 0 (1/2) 0 LineType.VALLEY ∈
      tessellate (Real.pi / 3) (Real.pi / 6) (1/2) 1 1 1 ∧
    (Segment.mk (1/2 : ℝ) 0 (1/2) 0 LineType.VALLEY).x1 =
      (Segment.mk (1/2 : ℝ) 0 (1/2) 0 LineType.VALLEY).x2 ∧
    (Segment.mk (1/2 : ℝ) 0 (1/2) 0 LineType.VALLEY).y1 =
      (Segment.mk (1/2 : ℝ) 0 (1/2) 0 LineType.VALLEY).y2 ∧
    (Segment.mk (1/2 : ℝ) 0 (1/2) 0 LineType.VALLEY).lineType ≠ LineType.EDGE ∧
    cellsHorOf 1 (1/2) = 2 ∧ cellsVertOf 1 1 = 1 := by
  refine ⟨?_, rfl, rfl, by decide, cellsHor_c7, cellsVert_c7⟩
  rw [tessellate, cellsHor_c7, cellsVert_c7, heightCut_c7, patternWidth_c7, patternHeight_c7]
  apply List.mem_append_right
  rw [gridSegments, show ((2 : ℤ)).toNat = 2 from rfl, show ((1 : ℤ)).toNat = 1 from rfl]
  refine List.mem_flatMap.2 ⟨0, by simp, ?_⟩
  refine List.mem_flatMap.2 ⟨0, by simp, ?_⟩
  apply List.mem_append_left
  rw [cellSegsI_eval_c7]
  exact List.mem_singleton.2 rfl

/-- C8: FALSE as stated.  The claim quantifies over all positive cell
dimensions with `target_width < cell_width`; at `target_width = -1`,
`cell_width = cell_height = 1` we have `target_width < cell_width`, but
`cells_hor = floor(-1 / 1) = -1 ≠ 0`. -/
theorem c8_negative_target_counterexample :
    (0 : ℝ) < 1 ∧ (-1 : ℝ) < 1 ∧ cellsHorOf (-1) 1 = -1 ∧ cellsHorOf (-1) 1 ≠ 0 := by
  refine ⟨one_pos, by norm_num, ?_, ?_⟩ <;> rw [cellsHorOf] <;> norm_num

/-- C8 (amended): for all positive `cell_width`, `cell_height`, if
`0 ≤ target_width < cell_width` then `cells_hor = 0` and the Tessellator
emits exactly the 4 EDGE segments of the zero-width bounding box (every
emitted x-coordinate is `0`) and no internal VALLEY or MOUNTAIN
segments.  (For negative `target_width`, `cells_hor` is the negative
`floor(target_width / cell_width)`; the output is still only the 4 EDGE
segments.) -/
theorem c8_zero_columns_edges_only (alpha beta cw ch tw th : ℝ)
    (hcw : 0 < cw) (_hch : 0 < ch) (htw0 : 0 ≤ tw) (htwcw : tw < cw) :
    cellsHorOf tw cw = 0 ∧
    (tessellate alpha beta cw ch tw th).map Segment.lineType =
      [LineType.EDGE, LineType.EDGE, LineType.EDGE, LineType.EDGE] ∧
    ∀ s ∈ tessellate alpha beta cw ch tw th, s.x1 = 0 ∧ s.x2 = 0 := by
  have h0 : cellsHorOf tw cw = 0 := by
    rw [cellsHorOf, Int.floor_eq_zero_iff]
    exact ⟨div_nonneg htw0 hcw.le, by rwa [div_lt_one hcw]⟩
  have hpw : patternWidth tw cw = 0 := by
    rw [patternWidth, h0]
    norm_num
  refine ⟨h0, tessellate_collapse_map alpha beta cw ch tw th (Or.inl h0.le), ?_⟩
  intro s hs
  rw [tessellate, gridSegments_eq_nil _ _ _ _ _ _ _ _ _ (Or.inl h0.le),
    List.append_nil, hpw, edgeSegments] at hs
  simp only [List.mem_cons, List.not_mem_nil, or_false] at hs
  rcases hs with h | h | h | h <;> rw [h] <;>
    exact ⟨clipX_zero_width _, clipX_zero_width _⟩

/-- Witness for the amended C8 at `α = β = 0`, cell `1 × 1`, target
`1/2 × 1`. -/
theorem c8_zero_columns_edges_only_witness :
    (0 : ℝ) < 1 ∧ (0 : ℝ) ≤ 1/2 ∧ (1/2 : ℝ) < 1 ∧
    cellsHorOf (1/2) 1 = 0 ∧
    (tessellate 0 0 1 1 (1/2) 1).map Segment.lineType =
      [LineType.EDGE, LineType.EDGE, LineType.EDGE, LineType.EDGE] :=
  ⟨one_pos, by norm_num, by norm_num,
   (c8_zero_columns_edges_only 0 0 1 1 (1/2) 1 one_pos one_pos (by norm_num)
      (by norm_num)).1,
   (c8_zero_columns_edges_only 0 0 1 1 (1/2) 1 one_pos one_pos (by norm_num)
      (by norm_num)).2.1⟩

theorem mem_cellSegsI_shape (alpha beta cw ch hc w h : ℝ) (cellsHor : ℤ) (i j : ℕ)
    (s : Segment) (hs : s ∈ cellSegsI alpha beta cw ch hc w h cellsHor i j) :
    ∃ sx sy ex ey lt, s = addLine cw ch hc w h sx sy ex ey lt := by
  simp only [cellSegsI] at hs
  split at hs
  · rw [List.mem_singleton] at hs
    exact ⟨_, _, _, _, _, hs⟩
  · simp at hs

theorem mem_cellSegsJ_shape (alpha beta cw ch hc w h : ℝ) (cellsVert : ℤ) (i j : ℕ)
    (s : Segment) (hs : s ∈ cellSegsJ alpha beta cw ch hc w h cellsVert i j) :
    ∃ sx sy ex ey lt, s = addLine cw ch hc w h sx sy ex ey lt := by
  simp only [cellSegsJ] at hs
  split at hs
  · rw [List.mem_singleton] at hs
    exact ⟨_, _, _, _, _, hs⟩
  · simp at hs

theorem mem_tessellate_shape (alpha beta cw ch tw th : ℝ) (s : Segment)
    (hs : s ∈ tessellate alpha beta cw ch tw th) :
    ∃ sx sy ex ey lt,
      s = addLine cw ch (heightCutOf alpha ch) (patternWidth tw cw)
        (patternHeight alpha th ch) sx sy ex ey lt := by
  rw [tessellate] at hs
  rcases List.mem_append.1 hs with h | h
  · rw [edgeSegments] at h
    simp only [List.mem_cons, List.not_mem_nil, or_false] at h
    rcases h with h | h | h | h <;> exact ⟨_, _, _, _, _, h⟩
  · rw [gridSegments] at h
    rcases List.mem_flatMap.1 h with ⟨i, _, hi⟩
    rcases List.mem_flatMap.1 hi with ⟨j, _, hj⟩
    rcases List.mem_append.1 hj with hI | hJ
    · exact mem_cellSegsI_shape _ _ _ _ _ _ _ _ i j s hI
    · exact mem_cellSegsJ_shape _ _ _ _ _ _ _ _ i j s hJ

/-- C9 (amended): every segment the Tessellator hands to a renderer is
produced by `add_line`, i.e. each coordinate equals
`clamp(x·cell_width, 0, pattern_width)` resp.
`clamp(y·cell_height − height_cut, 0, pattern_height)`; and WHENEVER
`pattern_width ≥ 0` and `pattern_height ≥ 0` (which the claim tacitly
assumed — it can fail, see the counterexample) every coordinate lies in
`[0, pattern_width] × [0, pattern_height]`. -/
theorem c9_coordinates_clipped (alpha beta cw ch tw th : ℝ) (s : Segment)
    (hs : s ∈ tessellate alpha beta cw ch tw th) :
    (∃ sx sy ex ey lt,
      s = addLine cw ch (heightCutOf alpha ch) (patternWidth tw cw)
        (patternHeight alpha th ch) sx sy ex ey lt) ∧
    (0 ≤ patternWidth tw cw → 0 ≤ patternHeight alpha th ch →
      s.x1 ∈ Set.Icc 0 (patternWidth tw cw) ∧
      s.y1 ∈ Set.Icc 0 (patternHeight alpha th ch) ∧
      s.x2 ∈ Set.Icc 0 (patternWidth tw cw) ∧
      s.y2 ∈ Set.Icc 0 (patternHeight alpha th ch)) := by
  obtain ⟨sx, sy, ex, ey, lt, heq⟩ := mem_tessellate_shape alpha beta cw ch tw th s hs
  subst heq
  exact ⟨⟨sx, sy, ex, ey, lt, rfl⟩, fun hw hh =>
    ⟨clipX_mem_Icc _ _ hw, clipY_mem_Icc _ _ hh,
     clipX_mem_Icc _ _ hw, clipY_mem_Icc _ _ hh⟩⟩

theorem one_lt_sqrt_three : (1 : ℝ) < Real.sqrt 3 := by
  nlinarith [Real.sq_sqrt (show (0 : ℝ) ≤ 3 by norm_num), Real.sqrt_nonneg 3]

theorem cellsHor_c9 : cellsHorOf (1/2) (1/2 : ℝ) = 1 := by
  rw [cellsHorOf]; norm_num

theorem patternWidth_c9 : patternWidth (1/2) (1/2 : ℝ) = 1/2 := by
  rw [patternWidth, cellsHor_c9]; norm_num

/-- C9: FALSE as stated.  With `α = π/3`, `β = π/6` (the solver's output
for `R = √3, h = 1, β = π/6`), cell `1/2 × 1`, target `1/2 × 1`, the
pattern height is `1·1 − 1·tan(π/3) = 1 − √3 < 0`, so the box
`[0, pattern_width] × [0, pattern_height]` is empty on the y-axis and
the first EDGE segment's clipped start y-coordinate `0` lies OUTSIDE
`[0, pattern_height]` — the claim's membership part fails whenever the
drawing height is negative (the clamp equality part is what survives). -/
theorem c9_outside_box_counterexample :
    Segment.mk (0 : ℝ) 0 (1/2) 0 LineType.EDGE ∈
      tessellate (Real.pi / 3) (Real.pi / 6) (1/2) 1 (1/2) 1 ∧
    ¬ ((Segment.mk (0 : ℝ) 0 (1/2) 0 LineType.EDGE).y1 ∈
        Set.Icc 0 (patternHeight (Real.pi / 3) 1 1)) := by
  have hle : (1 : ℝ) - Real.sqrt 3 ≤ 0 := by linarith [one_le_sqrt_three]
  constructor
  · rw [tessellate, cellsHor_c9, cellsVert_c7, heightCut_c7, patternWidth_c9,
      patternHeight_c7]
    apply List.mem_append_left
    rw [edgeSegments]
    refine List.mem_cons.2 (Or.inl ?_)
    simp only [addLine]
    rw [clipY_of_nonpos_height _ _ hle]
    norm_num [clipX, min_def, max_def]
  · rw [patternHeight_c7]
    simp only [Set.mem_Icc, not_and, not_le]
    intro
    linarith [one_lt_sqrt_three]

theorem cellsHor_unit : cellsHorOf 1 (1 : ℝ) = 1 := by
  rw [cellsHorOf]; norm_num

theorem patternWidth_unit : patternWidth 1 (1 : ℝ) = 1 := by
  rw [patternWidth, cellsHor_unit]
  norm_num

theorem patternHeight_unit : patternHeight 0 1 (1 : ℝ) = 1 := by
  rw [patternHeight, cellsVert_c7, heightCutOf, Real.tan_zero]
  norm_num

theorem mem_first_edge_unit :
    Segment.mk (0 : ℝ) 0 1 0 LineType.EDGE ∈ tessellate 0 0 1 1 1 1 := by
  rw [tessellate, cellsHor_unit, cellsVert_c7, patternWidth_unit, patternHeight_unit]
  apply List.mem_append_left
  rw [edgeSegments]
  refine List.mem_cons.2 (Or.inl ?_)
  simp only [addLine, heightCutOf, Real.tan_zero]
  norm_num [clipX, clipY, min_def, max_def]

/-- Witness for the amended C9 at `α = β = 0`, cell `1 × 1`, target
`1 × 1`, on the first EDGE segment. -/
theorem c9_coordinates_clipped_witness :
    Segment.mk (0 : ℝ) 0 1 0 LineType.EDGE ∈ tessellate 0 0 1 1 1 1 ∧
    0 ≤ patternWidth 1 1 ∧ 0 ≤ patternHeight 0 1 1 ∧
    ((Segment.mk (0 : ℝ) 0 1 0 LineType.EDGE).x1 ∈ Set.Icc 0 (patternWidth 1 1) ∧
      (Segment.mk (0 : ℝ) 0 1 0 LineType.EDGE).y1 ∈ Set.Icc 0 (patternHeight 0 1 1) ∧
      (Segment.mk (0 : ℝ) 0 1 0 LineType.EDGE).x2 ∈ Set.Icc 0 (patternWidth 1 1) ∧
      (Segment.mk (0 : ℝ) 0 1 0 LineType.EDGE).y2 ∈ Set.Icc 0 (patternHeight 0 1 1)) :=
  ⟨mem_first_edge_unit, by rw [patternWidth_unit]; norm_num,
   by rw [patternHeight_unit]; norm_num,
   (c9_coordinates_clipped 0 0 1 1 1 1 (Segment.mk (0 : ℝ) 0 1 0 LineType.EDGE)
      mem_first_edge_unit).2 (by rw [patternWidth_unit]; norm_num)
      (by rw [patternHeight_unit]; norm_num)⟩

/-- Reachability of the counterexample parameters: the angle solver
itself produces `α = π/3` from `R = √3`, `h = 1`, `β = π/6`, so the
tessellations used in the C7/C9 counterexamples arise from an actual
`miura_ori` parameter set. -/
theorem alphaOf_counterexample_params :
    alphaOf (Real.sqrt 3) 1 (Real.pi / 6) = Real.pi / 3 := by
  have hrad : Real.sqrt 3 ^ 2 + (1 : ℝ) ^ 2 -
      2 * Real.sqrt 3 * 1 * Real.cos (Real.pi / 6) = 1 := by
    rw [Real.cos_pi_div_six]
    ring
  have hdenom : solverDenom (Real.sqrt 3) 1 (Real.pi / 6) = 1 := by
    rw [solverDenom, hrad, Real.sqrt_one]
  have harg : asinArg (Real.sqrt 3) 1 (Real.pi / 6) = Real.sin (Real.pi / 6) := by
    rw [asinArg, hdenom, div_one, one_mul]
  have hdelta : deltaOf (Real.sqrt 3) 1 (Real.pi / 6) = Real.pi / 6 := by
    rw [deltaOf, harg]
    exact Real.arcsin_sin (by linarith [Real.pi_pos]) (by linarith [Real.pi_pos])
  rw [alphaOf, hdelta]
  ring
